import Mathlib

/-!
Shallow embedding of the WolfVue classifier core (`WolfVue.py`):
the video analyzer `analyze_detections`, the single-frame analyzer
`analyze_image_detections`, and the taxonomy folder resolver
`get_species_folder_path`, together with the configuration constants they
read.  Python dicts are embedded as insertion-ordered association lists,
floats as rationals, and a raised exception (`KeyError` on an unknown
species key) as `Option.none`.
-/

namespace WolfVue

/-- A single model detection: the class name and its confidence score. -/
structure Detection where
  class_name : String
  confidence : ℚ
  deriving Repr, DecidableEq, Inhabited

/-- One frame of a video (or the single frame of a still image). -/
structure Frame where
  detections : List Detection
  deriving Repr, DecidableEq, Inhabited

/-- `DOMINANT_SPECIES_THRESHOLD = 0.9` from the configuration block. -/
def DOMINANT_SPECIES_THRESHOLD : ℚ := mkRat 9 10

/-- `MAX_SPECIES_TRANSITIONS = 5` from the configuration block. -/
def MAX_SPECIES_TRANSITIONS : Nat := 5

/-- `CONSECUTIVE_EMPTY_FRAMES = 15` from the configuration block. -/
def CONSECUTIVE_EMPTY_FRAMES : Nat := 15

/-- `IMAGE_MIN_DETECTIONS = 1` from the configuration block. -/
def IMAGE_MIN_DETECTIONS : Nat := 1

/-- `IMAGE_MULTI_SPECIES_THRESHOLD = 0.60` from the configuration block. -/
def IMAGE_MULTI_SPECIES_THRESHOLD : ℚ := mkRat 60 100

/-- `IMAGE_UNSORTED_MIN_CONFIDENCE = 0.35` from the configuration block. -/
def IMAGE_UNSORTED_MIN_CONFIDENCE : ℚ := mkRat 35 100

/-- `IMAGE_UNSORTED_MAX_CONFIDENCE = 0.65` from the configuration block. -/
def IMAGE_UNSORTED_MAX_CONFIDENCE : ℚ := mkRat 65 100

/-- `PREDATORS` list from the configuration block. -/
def PREDATORS : List String := ["Cougar", "Lynx", "Wolf", "Coyote", "Fox", "Bear"]

/-- `PREY` list from the configuration block. -/
def PREY : List String := ["WhiteTail", "MuleDeer", "Elk", "Moose"]

/-- The built-in `TAXONOMY` (category to species keys of the inner dicts). -/
def TAXONOMY : List (String × List String) :=
  [("Ungulates", ["WhiteTail", "MuleDeer", "Elk", "Moose"]),
   ("Predators", ["Cougar", "Lynx", "Wolf", "Coyote", "Fox", "Bear"])]

/-- Dict lookup on an insertion-ordered association list (first match). -/
def lookupS {α : Type} (s : String) : List (String × α) → Option α
  | [] => none
  | (k, v) :: rest => if k = s then some v else lookupS s rest

/-- `species_counts[species] += 1`: `none` models the `KeyError` raised when
`species` is not a key of the dict. -/
def bumpCount (s : String) : List (String × Nat) → Option (List (String × Nat))
  | [] => none
  | (k, v) :: rest =>
      if k = s then some ((k, v + 1) :: rest)
      else (bumpCount s rest).map (fun r => (k, v) :: r)

/-- `if i not in frames: frames.append(i)` on one frame-index list. -/
def addIdx (i : Nat) (fs : List Nat) : List Nat :=
  if i ∈ fs then fs else fs ++ [i]

/-- `if i not in species_frames[species]: species_frames[species].append(i)`:
`none` models the `KeyError` on an unknown species key. -/
def addFrameIdx (s : String) (i : Nat) :
    List (String × List Nat) → Option (List (String × List Nat))
  | [] => none
  | (k, fs) :: rest =>
      if k = s then some ((k, addIdx i fs) :: rest)
      else (addFrameIdx s i rest).map (fun r => (k, fs) :: r)

/-- Dict update with default 0 then increment (`frame_species` and the image
`species_counts` pattern: insert key at the end on first occurrence). -/
def bumpNew (s : String) : List (String × Nat) → List (String × Nat)
  | [] => [(s, 1)]
  | (k, v) :: rest =>
      if k = s then (k, v + 1) :: rest
      else (k, v) :: bumpNew s rest

/-- `species_confidences[species].append(confidence)` with default `[]`. -/
def appendConf (s : String) (c : ℚ) :
    List (String × List ℚ) → List (String × List ℚ)
  | [] => [(s, [c])]
  | (k, cs) :: rest =>
      if k = s then (k, cs ++ [c]) :: rest
      else (k, cs) :: appendConf s c rest

/-- `max(dict, key=dict.get)`: first key with the maximal value (Python's
`max` replaces the running best only on a strictly greater value). -/
def maxKeyAux (bk : String) (bv : Nat) : List (String × Nat) → String
  | [] => bk
  | (k, v) :: rest => if bv < v then maxKeyAux k v rest else maxKeyAux bk bv rest

/-- `max(species_counts, key=species_counts.get) if species_counts else None`. -/
def maxKey : List (String × Nat) → Option String
  | [] => none
  | (k, v) :: rest => some (maxKeyAux k v rest)

/-- Python truthiness of an optional string: `None` and `""` are falsy. -/
def truthyStr : Option String → Bool
  | none => false
  | some s => s ≠ ""

/-- A detection cluster (`{'species': .., 'start': .., 'end': .., 'frames': ..}`;
`end` is renamed `stop`, kept as `Int` since the code computes `i - n`). -/
structure Cluster where
  species : Option String
  start : Int
  stop : Int
  frames : Nat
  deriving Repr, DecidableEq, Inhabited

/-- The fresh cluster `{'species': None, 'start': 0, 'end': 0, 'frames': 0}`. -/
def emptyCluster : Cluster := ⟨none, 0, 0, 0⟩

/-- The mutable state of the per-frame loop of `analyze_detections`. -/
structure VState where
  frames_with_detections : Nat
  species_counts : List (String × Nat)
  species_frames : List (String × List Nat)
  current_species : Option String
  species_transitions : Nat
  frames_without_detection : Nat
  clusters : List Cluster
  current_cluster : Cluster
  deriving Repr, DecidableEq, Inhabited

/-- The inner `for detection in detections` loop of one frame: updates
`species_counts`, `species_frames` and the frame-local `frame_species`.
`none` models the `KeyError` on a species absent from `class_names`. -/
def procDets (i : Nat) :
    List Detection → List (String × Nat) → List (String × List Nat) →
    List (String × Nat) →
    Option (List (String × Nat) × List (String × List Nat) × List (String × Nat))
  | [], counts, sframes, fsp => some (counts, sframes, fsp)
  | d :: ds, counts, sframes, fsp =>
      (bumpCount d.class_name counts).bind fun counts1 =>
        (addFrameIdx d.class_name i sframes).bind fun sframes1 =>
          procDets i ds counts1 sframes1 (bumpNew d.class_name fsp)

/-- One iteration of `for i, frame in enumerate(frame_data)`. -/
def stepFrame (i : Nat) (frame : Frame) (st : VState) : Option VState :=
  if frame.detections.isEmpty then
    let fwd := st.frames_without_detection + 1
    if CONSECUTIVE_EMPTY_FRAMES ≤ fwd ∧ truthyStr st.current_cluster.species then
      some { st with
        frames_without_detection := fwd,
        clusters := st.clusters ++
          [{ st.current_cluster with stop := (i : Int) - (fwd : Int) }],
        current_cluster := emptyCluster }
    else
      some { st with frames_without_detection := fwd }
  else
    (procDets i frame.detections st.species_counts st.species_frames []).bind
      fun res =>
        let st1 : VState := { st with
          frames_with_detections := st.frames_with_detections + 1,
          frames_without_detection := 0,
          species_counts := res.1,
          species_frames := res.2.1 }
        match maxKey res.2.2 with
        | none => some st1
        | some dom =>
            let trans :=
              if truthyStr st1.current_species ∧ st1.current_species ≠ some dom
              then st1.species_transitions + 1 else st1.species_transitions
            let st2 : VState :=
              { st1 with current_species := some dom, species_transitions := trans }
            if st2.current_cluster.species ≠ some dom then
              let cl :=
                if truthyStr st2.current_cluster.species
                then st2.clusters ++ [{ st2.current_cluster with stop := (i : Int) - 1 }]
                else st2.clusters
              some { st2 with clusters := cl,
                              current_cluster := ⟨some dom, (i : Int), (i : Int), 1⟩ }
            else
              let cc := st2.current_cluster
              some { st2 with current_cluster :=
                { cc with stop := (i : Int), frames := cc.frames + 1 } }

/-- The whole frame loop, from frame index `i`. -/
def runFrames : Nat → List Frame → VState → Option VState
  | _, [], st => some st
  | i, fr :: rest, st =>
      (stepFrame i fr st).bind fun st1 => runFrames (i + 1) rest st1

/-- Keys of a Python dict comprehension over `class_names.values()`:
order of first occurrence, duplicates collapsed. -/
def dedupKeys : List String → List String
  | [] => []
  | n :: ns => n :: (dedupKeys ns).filter (fun m => m ≠ n)

/-- `species_counts = {name: 0 ...}` and `species_frames = {name: [] ...}`
together with the other initial loop variables. -/
def initState (cn : List String) : VState where
  frames_with_detections := 0
  species_counts := (dedupKeys cn).map (fun n => (n, 0))
  species_frames := (dedupKeys cn).map (fun n => (n, ([] : List Nat)))
  current_species := none
  species_transitions := 0
  frames_without_detection := 0
  clusters := []
  current_cluster := emptyCluster

/-- `total_detections = sum(species_counts.values())`. -/
def totalOf (counts : List (String × Nat)) : Nat := (counts.map Prod.snd).sum

/-- `species_percentages`: `count / total_detections` for positive counts,
empty when there are no detections. -/
def speciesPercentagesOf (counts : List (String × Nat)) : List (String × ℚ) :=
  let total := totalOf counts
  if 0 < total then
    (counts.filter (fun p => 0 < p.2)).map
      (fun p => (p.1, mkRat p.2 total))
  else []

/-- `species_frame_percentages`: `len(frames) / total_frames` for nonempty
frame lists. -/
def speciesFramePercentagesOf (sframes : List (String × List Nat))
    (total_frames : Nat) : List (String × ℚ) :=
  (sframes.filter (fun p => ¬ p.2.isEmpty)).map
    (fun p => (p.1, mkRat p.2.length total_frames))

/-- Stable descending insertion for `sorted(clusters, key=frames, reverse=True)`. -/
def insertClusterDesc (c : Cluster) : List Cluster → List Cluster
  | [] => [c]
  | d :: ds => if d.frames < c.frames then c :: d :: ds else d :: insertClusterDesc c ds

/-- Stable descending sort of clusters by frame count. -/
def sortClustersDesc : List Cluster → List Cluster
  | [] => []
  | c :: cs => insertClusterDesc c (sortClustersDesc cs)

/-- `p in species_counts and species_counts[p] > 0`. -/
def countPos (counts : List (String × Nat)) (s : String) : Bool :=
  match lookupS s counts with
  | some v => 0 < v
  | none => false

/-- `has_predator`: some predator has a positive count. -/
def hasPredator (counts : List (String × Nat)) : Bool :=
  PREDATORS.any (countPos counts)

/-- `has_prey`: some prey species has a positive count. -/
def hasPrey (counts : List (String × Nat)) : Bool :=
  PREY.any (countPos counts)

/-- `significant_species`: species covering at least 10% of the frames. -/
def significantSpeciesOf (sfp : List (String × ℚ)) : List String :=
  (sfp.filter (fun p => mkRat 1 10 ≤ p.2)).map Prod.fst

/-- The `reason` strings of the classifier, one constructor per format
string, carrying the interpolated values. -/
inductive Reason where
  | noAnimals
  | predatorPrey
  | tooManyTransitions (n : Nat)
  | dominantSpecies (s : String) (pct : ℚ)
  | noClearDominant
  | insufficientDetections (found need : Nat)
  | confidenceBand (maxc : ℚ)
  | singleSpecies (s : String) (conf : ℚ)
  | predatorPreyImage
  | clearWinner (a : String) (ca : ℚ) (b : String) (cb : ℚ)
  | similarConfidence (a : String) (ca : ℚ) (b : String) (cb : ℚ)
  | noValidDetections
  deriving Repr, DecidableEq, Inhabited

/-- The record returned by both analyzers. -/
structure AnalysisResult where
  total_frames : Nat
  frames_with_detections : Nat
  detection_rate : ℚ
  species_counts : List (String × Nat)
  species_percentages : List (String × ℚ)
  species_frame_percentages : List (String × ℚ)
  species_transitions : Nat
  clusters : List Cluster
  classification : String
  reason : Reason
  deriving Repr, DecidableEq, Inhabited

/-- The video classification decision chain (the `if/elif` ladder), with
Python's truthiness on `dominant_species` (`None` and `""` falsy). -/
def classifyVideo (fwd : Nat) (conflict : Bool) (trans : Nat) (nsig : Nat)
    (dominant : Option String) (sp : List (String × ℚ)) : String × Reason :=
  if fwd = 0 then ("No_Animal", Reason.noAnimals)
  else if conflict then ("Unsorted", Reason.predatorPrey)
  else if MAX_SPECIES_TRANSITIONS < trans ∧ 1 < nsig then
    ("Unsorted", Reason.tooManyTransitions trans)
  else
    match dominant with
    | some d =>
        if d ≠ "" ∧ DOMINANT_SPECIES_THRESHOLD ≤ (lookupS d sp).getD 0 then
          (d, Reason.dominantSpecies d ((lookupS d sp).getD 0))
        else ("Unsorted", Reason.noClearDominant)
    | none => ("Unsorted", Reason.noClearDominant)

/-- The multi-frame (video) branch of `analyze_detections`. -/
def analyzeVideoDetections (frame_data : List Frame) (class_names : List String) :
    Option AnalysisResult :=
  (runFrames 0 frame_data (initState class_names)).map fun st =>
    let total_frames := frame_data.length
    let species_percentages := speciesPercentagesOf st.species_counts
    let species_frame_percentages :=
      speciesFramePercentagesOf st.species_frames total_frames
    let dominant := maxKey st.species_counts
    let conflict := hasPredator st.species_counts && hasPrey st.species_counts
    let significant := significantSpeciesOf species_frame_percentages
    let detection_rate : ℚ :=
      if 0 < total_frames then mkRat st.frames_with_detections total_frames else 0
    let cr := classifyVideo st.frames_with_detections conflict
      st.species_transitions significant.length dominant species_percentages
    { total_frames := total_frames
      frames_with_detections := st.frames_with_detections
      detection_rate := detection_rate
      species_counts := st.species_counts
      species_percentages := species_percentages
      species_frame_percentages := species_frame_percentages
      species_transitions := st.species_transitions
      clusters := sortClustersDesc st.clusters
      classification := cr.1
      reason := cr.2 }

/-- The image counting loop: `species_counts` and `species_confidences`. -/
def buildImageCounts :
    List Detection → List (String × Nat) → List (String × List ℚ) →
    List (String × Nat) × List (String × List ℚ)
  | [], counts, confs => (counts, confs)
  | d :: ds, counts, confs =>
      buildImageCounts ds (bumpNew d.class_name counts)
        (appendConf d.class_name d.confidence confs)

/-- `species_avg_confidence`: mean of each species' confidence list. -/
def avgConfidences (confs : List (String × List ℚ)) : List (String × ℚ) :=
  confs.map (fun p => (p.1, p.2.sum / (p.2.length : ℚ)))

/-- `max(xs, default=0)` over a list of rationals. -/
def listMaxQ : List ℚ → ℚ
  | [] => 0
  | c :: cs => cs.foldl max c

/-- `max_confidence`: maximum over all confidences of all species, 0 when
there are none. -/
def maxConfidenceOf (confs : List (String × List ℚ)) : ℚ :=
  listMaxQ ((confs.map Prod.snd).flatten)

/-- Stable descending insertion by average confidence
(`sorted(..., key=x[1], reverse=True)`). -/
def insertAvgDesc (x : String × ℚ) : List (String × ℚ) → List (String × ℚ)
  | [] => [x]
  | y :: ys => if y.2 < x.2 then x :: y :: ys else y :: insertAvgDesc x ys

/-- Stable descending sort by average confidence. -/
def sortAvgDesc : List (String × ℚ) → List (String × ℚ)
  | [] => []
  | x :: xs => insertAvgDesc x (sortAvgDesc xs)

/-- The image classification decision chain.  The fallback arms of the two
inner `match`es are unreachable on the arguments this function receives
(they mirror list indexing that cannot fail under the guarding
`len` checks). -/
def classifyImage (counts : List (String × Nat)) (avg : List (String × ℚ))
    (total : Nat) (maxc : ℚ) : String × Reason :=
  if total < IMAGE_MIN_DETECTIONS then
    ("No_Animal", Reason.insufficientDetections total IMAGE_MIN_DETECTIONS)
  else if IMAGE_UNSORTED_MIN_CONFIDENCE ≤ maxc ∧ maxc ≤ IMAGE_UNSORTED_MAX_CONFIDENCE then
    ("Unsorted", Reason.confidenceBand maxc)
  else
    match counts with
    | [] => ("No_Animal", Reason.noValidDetections)
    | [(s, _)] => (s, Reason.singleSpecies s ((lookupS s avg).getD 0))
    | _ :: _ :: _ =>
        match sortAvgDesc avg with
        | (hs, hc) :: (ss, sc) :: _ =>
            let detected := counts.map Prod.fst
            if detected.any (fun s => PREDATORS.contains s) ∧
               detected.any (fun s => PREY.contains s) then
              ("Unsorted", Reason.predatorPreyImage)
            else if IMAGE_MULTI_SPECIES_THRESHOLD ≤ hc - sc then
              (hs, Reason.clearWinner hs hc ss sc)
            else ("Unsorted", Reason.similarConfidence hs hc ss sc)
        | _ => ("No_Animal", Reason.noValidDetections)

/-- `analyze_image_detections`: the single-frame analyzer.  Total: the
image path never raises (its dicts are built, not pre-keyed). -/
def analyze_image_detections (frame : Frame) (class_names : List String) :
    AnalysisResult :=
  let built := buildImageCounts frame.detections [] []
  let species_counts := built.1
  let species_confidences := built.2
  let species_avg_confidence := avgConfidences species_confidences
  let total_detections := totalOf species_counts
  let species_percentages :=
    if 0 < total_detections then
      species_counts.map (fun p => (p.1, mkRat p.2 total_detections))
    else []
  let max_confidence := maxConfidenceOf species_confidences
  let cr := classifyImage species_counts species_avg_confidence
    total_detections max_confidence
  { total_frames := 1
    frames_with_detections := if 0 < total_detections then 1 else 0
    detection_rate := if 0 < total_detections then 1 else 0
    species_counts := species_counts
    species_percentages := species_percentages
    species_frame_percentages := species_percentages
    species_transitions := 0
    clusters := []
    classification := cr.1
    reason := cr.2 }

/-- `analyze_detections`: dispatches single frames to the image analyzer,
everything else to the video analyzer.  `none` models a raised exception. -/
def analyze_detections (frame_data : List Frame) (class_names : List String) :
    Option AnalysisResult :=
  match frame_data with
  | [frame] => some (analyze_image_detections frame class_names)
  | _ => analyzeVideoDetections frame_data class_names

/-- `species in subcategories` scan over the taxonomy, in order. -/
def findCategory (species : String) : List (String × List String) → Option String
  | [] => none
  | (category, subs) :: rest =>
      if species ∈ subs then some category else findCategory species rest

/-- `get_species_folder_path`, with `os.path.join` embedded as the list of
path components (the `os.makedirs` side effect does not affect the value). -/
def get_species_folder_path (base_path : List String) (species : String)
    (taxonomy : List (String × List String)) : List String :=
  if species = "Unsorted" then base_path ++ ["Unsorted"]
  else if species = "No_Animal" then base_path ++ ["No_Animal"]
  else
    match findCategory species taxonomy with
    | some category => base_path ++ ["Sorted", category, species]
    | none => base_path ++ ["Sorted", "Other", species]

/-- Total number of detections of species `s` in a frame sequence. -/
def detCountIn (s : String) (fd : List Frame) : Nat :=
  (fd.map (fun fr => (fr.detections.filter (fun d => d.class_name = s)).length)).sum

/-- Number of frames containing at least one detection of species `s`. -/
def coverCount (s : String) (fd : List Frame) : Nat :=
  (fd.filter (fun fr => fr.detections.any (fun d => d.class_name = s))).length

end WolfVue


namespace WolfVue

/-! ### Association-list lemmas -/

theorem lookupS_eq_none {α : Type} (s : String) :
    ∀ l : List (String × α), lookupS s l = none ↔ s ∉ l.map Prod.fst := by
  intro l
  induction l with
  | nil => simp [lookupS]
  | cons p rest ih =>
      obtain ⟨k, v⟩ := p
      by_cases hk : k = s
      · subst hk; simp [lookupS]
      · simp [lookupS, hk, ih, Ne.symm hk]

theorem lookupS_isSome {α : Type} (s : String) :
    ∀ l : List (String × α), (lookupS s l).isSome ↔ s ∈ l.map Prod.fst := by
  intro l
  induction l with
  | nil => simp [lookupS]
  | cons p rest ih =>
      obtain ⟨k, v⟩ := p
      by_cases hk : k = s
      · subst hk; simp [lookupS]
      · simp [lookupS, hk, ih, Ne.symm hk]

theorem lookupS_mem {α : Type} (s : String) (v : α) :
    ∀ l : List (String × α), lookupS s l = some v → (s, v) ∈ l := by
  intro l
  induction l with
  | nil => simp [lookupS]
  | cons p rest ih =>
      obtain ⟨k, w⟩ := p
      by_cases hk : k = s
      · subst hk
        intro h
        simp [lookupS] at h
        subst h
        exact List.mem_cons_self _ _
      · simp only [lookupS, if_neg hk]
        intro h
        exact List.mem_cons_of_mem _ (ih h)

theorem bumpCount_keys (s : String) :
    ∀ l l' : List (String × Nat), bumpCount s l = some l' →
      l'.map Prod.fst = l.map Prod.fst := by
  intro l
  induction l with
  | nil => simp [bumpCount]
  | cons p rest ih =>
      obtain ⟨k, v⟩ := p
      intro l' h
      by_cases hk : k = s
      · subst hk
        simp [bumpCount] at h
        subst h; simp
      · simp only [bumpCount, if_neg hk, Option.map_eq_some'] at h
        obtain ⟨r, hr, rfl⟩ := h
        simp [ih r hr]

theorem bumpCount_isSome (s : String) :
    ∀ l : List (String × Nat), (bumpCount s l).isSome ↔ s ∈ l.map Prod.fst := by
  intro l
  induction l with
  | nil => simp [bumpCount]
  | cons p rest ih =>
      obtain ⟨k, v⟩ := p
      by_cases hk : k = s
      · subst hk; simp [bumpCount]
      · simp [bumpCount, hk, ih, Ne.symm hk]

theorem bumpCount_lookup (s : String) :
    ∀ l l' : List (String × Nat), bumpCount s l = some l' →
      ∀ t, lookupS t l' =
        if t = s then (lookupS t l).map (· + 1) else lookupS t l := by
  intro l
  induction l with
  | nil => simp [bumpCount]
  | cons p rest ih =>
      obtain ⟨k, v⟩ := p
      intro l' h t
      by_cases hk : k = s
      · subst hk
        simp [bumpCount] at h
        subst h
        by_cases ht : k = t
        · subst ht
          simp [lookupS]
        · have ht' : ¬ t = k := fun hh => ht hh.symm
          simp [lookupS, ht, ht']
      · simp only [bumpCount, if_neg hk, Option.map_eq_some'] at h
        obtain ⟨r, hr, rfl⟩ := h
        by_cases ht : k = t
        · subst ht
          have hks : ¬ (k = s) := hk
          simp [lookupS, hks]
        · simp only [lookupS, if_neg ht]
          exact ih r hr t

theorem addFrameIdx_keys (s : String) (i : Nat) :
    ∀ l l' : List (String × List Nat), addFrameIdx s i l = some l' →
      l'.map Prod.fst = l.map Prod.fst := by
  intro l
  induction l with
  | nil => simp [addFrameIdx]
  | cons p rest ih =>
      obtain ⟨k, v⟩ := p
      intro l' h
      by_cases hk : k = s
      · subst hk
        simp [addFrameIdx] at h
        subst h; simp
      · simp only [addFrameIdx, if_neg hk, Option.map_eq_some'] at h
        obtain ⟨r, hr, rfl⟩ := h
        simp [ih r hr]

theorem addFrameIdx_isSome (s : String) (i : Nat) :
    ∀ l : List (String × List Nat),
      (addFrameIdx s i l).isSome ↔ s ∈ l.map Prod.fst := by
  intro l
  induction l with
  | nil => simp [addFrameIdx]
  | cons p rest ih =>
      obtain ⟨k, v⟩ := p
      by_cases hk : k = s
      · subst hk; simp [addFrameIdx]
      · simp [addFrameIdx, hk, ih, Ne.symm hk]

theorem addFrameIdx_lookup (s : String) (i : Nat) :
    ∀ l l' : List (String × List Nat), addFrameIdx s i l = some l' →
      ∀ t, lookupS t l' =
        if t = s then (lookupS t l).map (addIdx i) else lookupS t l := by
  intro l
  induction l with
  | nil => simp [addFrameIdx]
  | cons p rest ih =>
      obtain ⟨k, v⟩ := p
      intro l' h t
      by_cases hk : k = s
      · subst hk
        simp [addFrameIdx] at h
        subst h
        by_cases ht : k = t
        · subst ht
          simp [lookupS]
        · have ht' : ¬ t = k := fun hh => ht hh.symm
          simp [lookupS, ht, ht']
      · simp only [addFrameIdx, if_neg hk, Option.map_eq_some'] at h
        obtain ⟨r, hr, rfl⟩ := h
        by_cases ht : k = t
        · subst ht
          have hks : ¬ (k = s) := hk
          simp [lookupS, hks]
        · simp only [lookupS, if_neg ht]
          exact ih r hr t

theorem bumpNew_keys (s : String) :
    ∀ l : List (String × Nat), (bumpNew s l).map Prod.fst =
      if s ∈ l.map Prod.fst then l.map Prod.fst else l.map Prod.fst ++ [s] := by
  intro l
  induction l with
  | nil => simp [bumpNew]
  | cons p rest ih =>
      obtain ⟨k, v⟩ := p
      by_cases hk : k = s
      · subst hk; simp [bumpNew]
      · have hk' : ¬ s = k := fun hh => hk hh.symm
        simp only [bumpNew, if_neg hk, List.map_cons, List.mem_cons, ih]
        by_cases hs : s ∈ rest.map Prod.fst
        · simp [hs, hk']
        · simp [hs, hk']

theorem bumpNew_pos (s : String) :
    ∀ l : List (String × Nat), (∀ p ∈ l, 1 ≤ p.2) →
      ∀ p ∈ bumpNew s l, 1 ≤ p.2 := by
  intro l
  induction l with
  | nil =>
      intro _ p hp
      simp [bumpNew] at hp
      simp [hp]
  | cons q rest ih =>
      obtain ⟨k, v⟩ := q
      intro hl p hp
      by_cases hk : k = s
      · subst hk
        simp only [bumpNew, if_pos rfl] at hp
        rcases List.mem_cons.mp hp with h | h
        · subst h; simp
        · exact hl p (List.mem_cons_of_mem _ h)
      · simp only [bumpNew, if_neg hk] at hp
        rcases List.mem_cons.mp hp with h | h
        · subst h
          exact hl (k, v) (List.mem_cons_self _ _)
        · exact ih (fun q hq => hl q (List.mem_cons_of_mem _ hq)) p h

theorem appendConf_keys (s : String) (c : ℚ) :
    ∀ l : List (String × List ℚ), (appendConf s c l).map Prod.fst =
      if s ∈ l.map Prod.fst then l.map Prod.fst else l.map Prod.fst ++ [s] := by
  intro l
  induction l with
  | nil => simp [appendConf]
  | cons p rest ih =>
      obtain ⟨k, v⟩ := p
      by_cases hk : k = s
      · subst hk; simp [appendConf]
      · have hk' : ¬ s = k := fun hh => hk hh.symm
        simp only [appendConf, if_neg hk, List.map_cons, List.mem_cons, ih]
        by_cases hs : s ∈ rest.map Prod.fst
        · simp [hs, hk']
        · simp [hs, hk']

theorem dedupKeys_mem (s : String) :
    ∀ l : List String, s ∈ dedupKeys l ↔ s ∈ l := by
  intro l
  induction l with
  | nil => simp [dedupKeys]
  | cons n ns ih =>
      by_cases hn : s = n
      · subst hn; simp [dedupKeys]
      · simp [dedupKeys, hn, List.mem_filter, ih]

theorem dedupKeys_nodup : ∀ l : List String, (dedupKeys l).Nodup := by
  intro l
  induction l with
  | nil => simp [dedupKeys]
  | cons n ns ih =>
      simp only [dedupKeys, List.nodup_cons]
      constructor
      · intro h
        have := (List.mem_filter.mp h).2
        simp at this
      · exact List.Nodup.filter _ ih

theorem lookupS_map_const {α : Type} (s : String) (c : α) :
    ∀ l : List String, lookupS s (l.map (fun n => (n, c))) =
      if s ∈ l then some c else none := by
  intro l
  induction l with
  | nil => simp [lookupS]
  | cons n ns ih =>
      by_cases hn : n = s
      · subst hn; simp [lookupS]
      · have hn' : ¬ s = n := fun hh => hn hh.symm
        simp [lookupS, hn, hn', ih]

theorem totalOf_init (cn : List String) :
    totalOf ((dedupKeys cn).map (fun n => (n, 0))) = 0 := by
  apply List.sum_eq_zero
  intro x hx
  simp only [totalOf, List.map_map, List.mem_map] at hx
  obtain ⟨n, _, rfl⟩ := hx
  rfl

theorem lookupS_filter_map {α β : Type} (P : α → Bool) (f : α → β) (s : String) :
    ∀ l : List (String × α), (l.map Prod.fst).Nodup →
      lookupS s ((l.filter (fun p => P p.2)).map (fun p => (p.1, f p.2))) =
        (lookupS s l).bind (fun v => if P v then some (f v) else none) := by
  intro l
  induction l with
  | nil => simp [lookupS]
  | cons p rest ih =>
      obtain ⟨k, v⟩ := p
      intro hnd
      have hnd' : (rest.map Prod.fst).Nodup := (List.nodup_cons.mp hnd).2
      have hkrest : k ∉ rest.map Prod.fst := (List.nodup_cons.mp hnd).1
      by_cases hk : k = s
      · subst hk
        by_cases hP : P v
        · simp [List.filter_cons, hP, lookupS]
        · have hself : lookupS k ((k, v) :: rest) = some v := by simp [lookupS]
          rw [List.filter_cons]
          simp only [hP, Bool.false_eq_true, if_false]
          rw [ih hnd', (lookupS_eq_none k rest).mpr hkrest, hself]
          simp [hP]
      · by_cases hP : P v
        · simp only [List.filter_cons, hP, if_true, List.map_cons, lookupS,
            if_neg hk]
          exact ih hnd'
        · simp only [List.filter_cons, hP, Bool.false_eq_true, if_false,
            lookupS, if_neg hk]
          exact ih hnd'

theorem insertAvgDesc_mem (x y : String × ℚ) :
    ∀ l : List (String × ℚ), y ∈ insertAvgDesc x l → y = x ∨ y ∈ l := by
  intro l
  induction l with
  | nil =>
      intro h
      simp [insertAvgDesc] at h
      simp [h]
  | cons z zs ih =>
      intro h
      simp only [insertAvgDesc] at h
      by_cases hc : z.2 < x.2
      · rw [if_pos hc] at h
        rcases List.mem_cons.mp h with h | h
        · exact Or.inl h
        · exact Or.inr h
      · rw [if_neg hc] at h
        rcases List.mem_cons.mp h with h | h
        · exact Or.inr (List.mem_cons.mpr (Or.inl h))
        · rcases ih h with h' | h'
          · exact Or.inl h'
          · exact Or.inr (List.mem_cons.mpr (Or.inr h'))

theorem sortAvgDesc_mem (y : String × ℚ) :
    ∀ l : List (String × ℚ), y ∈ sortAvgDesc l → y ∈ l := by
  intro l
  induction l with
  | nil => simp [sortAvgDesc]
  | cons x xs ih =>
      intro h
      rcases insertAvgDesc_mem x y (sortAvgDesc xs) h with h' | h'
      · exact h' ▸ List.mem_cons_self _ _
      · exact List.mem_cons_of_mem _ (ih h')

theorem findCategory_of_unique (s cat : String) :
    ∀ tax : List (String × List String),
      (tax.filter (fun p => s ∈ p.2)).map Prod.fst = [cat] →
      findCategory s tax = some cat := by
  intro tax
  induction tax with
  | nil => simp
  | cons p rest ih =>
      obtain ⟨c, subs⟩ := p
      intro h
      by_cases hs : s ∈ subs
      · simp only [List.filter_cons, hs] at h
        simp only [decide_True, if_true, List.map_cons, List.cons.injEq] at h
        simp [findCategory, hs, h.1]
      · simp only [List.filter_cons, hs] at h
        simp only [decide_False, Bool.false_eq_true, if_false] at h
        simp [findCategory, hs, ih h]

theorem findCategory_of_absent (s : String) :
    ∀ tax : List (String × List String),
      (∀ p ∈ tax, s ∉ p.2) → findCategory s tax = none := by
  intro tax
  induction tax with
  | nil => simp [findCategory]
  | cons p rest ih =>
      obtain ⟨c, subs⟩ := p
      intro h
      have hs : s ∉ subs := h (c, subs) (List.mem_cons_self _ _)
      simp [findCategory, hs, ih (fun q hq => h q (List.mem_cons_of_mem _ hq))]

/-! ### Per-frame loop lemmas -/

theorem detCountIn_cons (s : String) (fr : Frame) (rest : List Frame) :
    detCountIn s (fr :: rest) =
      (fr.detections.filter (fun d => d.class_name = s)).length + detCountIn s rest := by
  simp [detCountIn]

theorem coverCount_cons (s : String) (fr : Frame) (rest : List Frame) :
    coverCount s (fr :: rest) =
      (if fr.detections.any (fun d => d.class_name = s) then 1 else 0) +
        coverCount s rest := by
  by_cases h : fr.detections.any (fun d => d.class_name = s)
  · simp [coverCount, List.filter_cons, h, Nat.add_comm]
  · simp [coverCount, List.filter_cons, h]

theorem addIdx_mem (i : Nat) (fs : List Nat) : i ∈ addIdx i fs := by
  by_cases hi : i ∈ fs
  · simp [addIdx, hi]
  · simp [addIdx, hi]

theorem addIdx_idem (i : Nat) (fs : List Nat) : addIdx i (addIdx i fs) = addIdx i fs := by
  by_cases hi : i ∈ fs
  · simp [addIdx, hi]
  · simp [addIdx, hi]

theorem addIdx_length (i : Nat) (fs : List Nat) (h : i ∉ fs) :
    (addIdx i fs).length = fs.length + 1 := by
  simp [addIdx, h]

theorem addIdx_bound (i n : Nat) (fs : List Nat) (hn : i < n) (h : ∀ j ∈ fs, j < n) :
    ∀ j ∈ addIdx i fs, j < n := by
  intro j hj
  have hor : j ∈ fs ∨ j = i := by
    by_cases hi : i ∈ fs
    · left
      simpa [addIdx, hi] using hj
    · simp [addIdx, hi] at hj
      exact hj
  rcases hor with hj' | hj'
  · exact h j hj'
  · subst hj'
    exact hn

theorem procDets_spec (i : Nat) :
    ∀ (ds : List Detection) counts sframes fsp out,
      procDets i ds counts sframes fsp = some out →
      out.1.map Prod.fst = counts.map Prod.fst ∧
      out.2.1.map Prod.fst = sframes.map Prod.fst ∧
      (∀ s, lookupS s out.1 =
        (lookupS s counts).map
          (· + (ds.filter (fun e => e.class_name = s)).length)) ∧
      (∀ s, lookupS s out.2.1 =
        (lookupS s sframes).map (fun fs =>
          if ds.any (fun e => e.class_name = s) then addIdx i fs else fs)) ∧
      (∀ s, 0 < (ds.filter (fun e => e.class_name = s)).length →
        s ∈ counts.map Prod.fst) := by
  intro ds
  induction ds with
  | nil =>
      intro counts sframes fsp out h
      simp only [procDets, Option.some.injEq] at h
      subst h
      refine ⟨rfl, rfl, ?_, ?_, ?_⟩
      · intro s; simp
      · intro s; simp
      · intro s hs; simp at hs
  | cons d ds ih =>
      intro counts sframes fsp out h
      simp only [procDets, Option.bind_eq_some] at h
      obtain ⟨c1, hc1, h⟩ := h
      obtain ⟨sf1, hsf1, hrec⟩ := h
      obtain ⟨ihk1, ihk2, ihc, ihf, ihm⟩ := ih c1 sf1 (bumpNew d.class_name fsp) out hrec
      have hck := bumpCount_keys d.class_name counts c1 hc1
      have hfk := addFrameIdx_keys d.class_name i sframes sf1 hsf1
      have hcl := bumpCount_lookup d.class_name counts c1 hc1
      have hfl := addFrameIdx_lookup d.class_name i sframes sf1 hsf1
      refine ⟨ihk1.trans hck, ihk2.trans hfk, ?_, ?_, ?_⟩
      · intro s
        rw [ihc s, hcl s]
        by_cases hs : s = d.class_name
        · rw [if_pos hs]
          have hdec : (decide (d.class_name = s)) = true := by simp [hs.symm]
          cases hv : lookupS s counts with
          | none => simp
          | some v =>
              simp only [Option.map_some', Option.some.injEq, List.filter_cons,
                hdec, if_true, List.length_cons]
              omega
        · rw [if_neg hs]
          have hdec : (decide (d.class_name = s)) = false := by
            simp
            exact fun hh => hs hh.symm
          cases hv : lookupS s counts with
          | none => simp
          | some v =>
              simp only [Option.map_some', Option.some.injEq, List.filter_cons, hdec]
              simp
      · intro s
        rw [ihf s, hfl s]
        by_cases hs : s = d.class_name
        · rw [if_pos hs]
          have hany : ((d :: ds).any (fun e => e.class_name = s)) = true := by
            simp [List.any_cons, hs.symm]
          cases hv : lookupS s sframes with
          | none => simp
          | some fs =>
              simp only [Option.map_some', Option.some.injEq, hany, if_true]
              by_cases hds : (ds.any (fun e => e.class_name = s)) = true
              · simp only [hds, if_true]
                exact addIdx_idem i fs
              · simp only [hds]
                simp
        · rw [if_neg hs]
          have hdec : (decide (d.class_name = s)) = false := by
            simp
            exact fun hh => hs hh.symm
          cases hv : lookupS s sframes with
          | none => simp
          | some fs =>
              simp only [Option.map_some', Option.some.injEq, List.any_cons, hdec,
                Bool.false_or]
      · intro s hs
        by_cases hds : s = d.class_name
        · rw [hds]
          exact (bumpCount_isSome d.class_name counts).mp (by rw [hc1]; rfl)
        · have hdec : (decide (d.class_name = s)) = false := by
            simp
            exact fun hh => hds hh.symm
          rw [List.filter_cons, hdec] at hs
          simp only [Bool.false_eq_true, if_false] at hs
          have hmem := ihm s hs
          rw [hck] at hmem
          exact hmem

theorem stepFrame_char (i : Nat) (fr : Frame) (st st1 : VState) :
    stepFrame i fr st = some st1 →
    (fr.detections = [] ∧
      st1.species_counts = st.species_counts ∧
      st1.species_frames = st.species_frames ∧
      st1.frames_with_detections = st.frames_with_detections) ∨
    (fr.detections ≠ [] ∧ ∃ out,
      procDets i fr.detections st.species_counts st.species_frames [] = some out ∧
      st1.species_counts = out.1 ∧
      st1.species_frames = out.2.1 ∧
      st1.frames_with_detections = st.frames_with_detections + 1) := by
  intro h
  by_cases he : fr.detections.isEmpty
  · left
    have hd : fr.detections = [] := List.isEmpty_iff.mp he
    simp only [stepFrame, he, if_true] at h
    split at h
    · cases h
      exact ⟨hd, rfl, rfl, rfl⟩
    · cases h
      exact ⟨hd, rfl, rfl, rfl⟩
  · right
    have hd : fr.detections ≠ [] := by
      intro hcon
      exact he (by simp [hcon])
    have he' : fr.detections.isEmpty = false := by
      simpa using he
    simp only [stepFrame, he', Bool.false_eq_true, if_false,
      Option.bind_eq_some] at h
    obtain ⟨out, hout, h2⟩ := h
    refine ⟨hd, out, hout, ?_⟩
    cases hmk : maxKey out.2.2 with
    | none =>
        rw [hmk] at h2
        cases h2
        exact ⟨rfl, rfl, rfl⟩
    | some dom =>
        rw [hmk] at h2
        simp only at h2
        split at h2
        · cases h2
          exact ⟨rfl, rfl, rfl⟩
        · cases h2
          exact ⟨rfl, rfl, rfl⟩

theorem stepFrame_isSome (i : Nat) (fr : Frame) (st : VState) :
    (∀ d ∈ fr.detections, d.class_name ∈ st.species_counts.map Prod.fst) →
    st.species_frames.map Prod.fst = st.species_counts.map Prod.fst →
    (stepFrame i fr st).isSome := by
  intro hmem hkeys
  by_cases he : fr.detections.isEmpty
  · simp only [stepFrame, he, if_true]
    split
    · rfl
    · rfl
  · have he' : fr.detections.isEmpty = false := by simpa using he
    simp only [stepFrame, he', Bool.false_eq_true, if_false]
    have htot : ∀ (ds : List Detection) counts sframes
        (fsp : List (String × Nat)),
        (∀ d ∈ ds, d.class_name ∈ counts.map Prod.fst) →
        sframes.map Prod.fst = counts.map Prod.fst →
        (procDets i ds counts sframes fsp).isSome := by
      intro ds
      induction ds with
      | nil =>
          intro counts sframes fsp _ _
          rfl
      | cons d ds ihd =>
          intro counts sframes fsp hm hk
          have hc : (bumpCount d.class_name counts).isSome :=
            (bumpCount_isSome _ _).mpr (hm d (List.mem_cons_self _ _))
          obtain ⟨c1, hc1⟩ := Option.isSome_iff_exists.mp hc
          have hf : (addFrameIdx d.class_name i sframes).isSome := by
            rw [addFrameIdx_isSome, hk]
            exact hm d (List.mem_cons_self _ _)
          obtain ⟨sf1, hsf1⟩ := Option.isSome_iff_exists.mp hf
          simp only [procDets, hc1, hsf1, Option.some_bind]
          apply ihd
          · intro e hein
            rw [bumpCount_keys d.class_name counts c1 hc1]
            exact hm e (List.mem_cons_of_mem _ hein)
          · rw [addFrameIdx_keys d.class_name i sframes sf1 hsf1,
              bumpCount_keys d.class_name counts c1 hc1]
            exact hk
    have := htot fr.detections st.species_counts st.species_frames [] hmem hkeys
    obtain ⟨out, hout⟩ := Option.isSome_iff_exists.mp this
    simp only [hout, Option.some_bind]
    cases maxKey out.2.2 with
    | none => rfl
    | some dom =>
        simp only
        split
        · rfl
        · rfl

theorem runFrames_spec :
    ∀ (fs : List Frame) (i : Nat) (st st' : VState),
      runFrames i fs st = some st' →
      st'.species_counts.map Prod.fst = st.species_counts.map Prod.fst ∧
      st'.species_frames.map Prod.fst = st.species_frames.map Prod.fst ∧
      st'.frames_with_detections = st.frames_with_detections +
        (fs.filter (fun fr => !fr.detections.isEmpty)).length ∧
      (∀ s, lookupS s st'.species_counts =
        (lookupS s st.species_counts).map (· + detCountIn s fs)) ∧
      (∀ s, 0 < detCountIn s fs → s ∈ st.species_counts.map Prod.fst) ∧
      (∀ s fs0, lookupS s st.species_frames = some fs0 → (∀ j ∈ fs0, j < i) →
        ∃ fs1, lookupS s st'.species_frames = some fs1 ∧
          fs1.length = fs0.length + coverCount s fs ∧
          ∀ j ∈ fs1, j < i + fs.length) := by
  intro fs
  induction fs with
  | nil =>
      intro i st st' h
      simp only [runFrames, Option.some.injEq] at h
      subst h
      refine ⟨rfl, rfl, by simp, ?_, ?_, ?_⟩
      · intro s
        simp [detCountIn]
      · intro s hs
        simp [detCountIn] at hs
      · intro s fs0 h0 hb
        exact ⟨fs0, h0, by simp [coverCount], fun j hj => by simpa using hb j hj⟩
  | cons fr rest ih =>
      intro i st st' h
      simp only [runFrames, Option.bind_eq_some] at h
      obtain ⟨stm, hstep, hrest⟩ := h
      obtain ⟨ih1, ih2, ih3, ih4, ih5, ih6⟩ := ih (i + 1) stm st' hrest
      rcases stepFrame_char i fr st stm hstep with
        ⟨hd, hc, hf, hw⟩ | ⟨hd, out, hout, hc, hf, hw⟩
      · -- empty frame: counts, frames, fwd unchanged
        have hdet : ∀ s, detCountIn s (fr :: rest) = detCountIn s rest := by
          intro s
          rw [detCountIn_cons, hd]
          simp
        have hcov : ∀ s, coverCount s (fr :: rest) = coverCount s rest := by
          intro s
          rw [coverCount_cons, hd]
          simp
        refine ⟨ih1.trans (by rw [hc]), ih2.trans (by rw [hf]), ?_, ?_, ?_, ?_⟩
        · rw [ih3, hw, List.filter_cons]
          have : (!fr.detections.isEmpty) = false := by simp [hd]
          simp [this]
        · intro s
          rw [hdet s, ih4 s, hc]
        · intro s hs
          rw [hdet s] at hs
          have := ih5 s hs
          rw [hc] at this
          exact this
        · intro s fs0 h0 hb
          have h0' : lookupS s stm.species_frames = some fs0 := by rw [hf]; exact h0
          have hb' : ∀ j ∈ fs0, j < i + 1 :=
            fun j hj => Nat.lt_succ_of_lt (hb j hj)
          obtain ⟨fs1, hl1, hlen1, hb1⟩ := ih6 s fs0 h0' hb'
          refine ⟨fs1, hl1, by rw [hlen1, hcov s], ?_⟩
          intro j hj
          have := hb1 j hj
          simpa [Nat.add_assoc, Nat.add_comm 1] using this
      · -- frame with detections
        obtain ⟨pk1, pk2, pc, pf, pm⟩ := procDets_spec i fr.detections
          st.species_counts st.species_frames [] out hout
        have hkc : stm.species_counts.map Prod.fst = st.species_counts.map Prod.fst := by
          rw [hc]; exact pk1
        have hkf : stm.species_frames.map Prod.fst = st.species_frames.map Prod.fst := by
          rw [hf]; exact pk2
        refine ⟨ih1.trans hkc, ih2.trans hkf, ?_, ?_, ?_, ?_⟩
        · rw [ih3, hw, List.filter_cons]
          have : (!fr.detections.isEmpty) = true := by simp [hd]
          simp only [this, if_true, List.length_cons]
          omega
        · intro s
          rw [ih4 s, hc, pc s, detCountIn_cons]
          cases hv : lookupS s st.species_counts with
          | none => simp
          | some v =>
              simp only [Option.map_some', Option.some.injEq]
              omega
        · intro s hs
          rw [detCountIn_cons] at hs
          by_cases hfr : 0 < (fr.detections.filter (fun e => e.class_name = s)).length
          · exact pm s hfr
          · have hrestpos : 0 < detCountIn s rest := by omega
            have := ih5 s hrestpos
            rw [hkc] at this
            exact this
        · intro s fs0 h0 hb
          have hlm : lookupS s stm.species_frames =
              some (if fr.detections.any (fun e => e.class_name = s)
                    then addIdx i fs0 else fs0) := by
            rw [hf, pf s, h0]
            rfl
          set fs0' := if fr.detections.any (fun e => e.class_name = s)
                      then addIdx i fs0 else fs0 with hfs0'
          have hb' : ∀ j ∈ fs0', j < i + 1 := by
            intro j hj
            rw [hfs0'] at hj
            by_cases hany : fr.detections.any (fun e => e.class_name = s)
            · rw [if_pos hany] at hj
              exact addIdx_bound i (i + 1) fs0 (Nat.lt_succ_self i)
                (fun j' hj' => Nat.lt_succ_of_lt (hb j' hj')) j hj
            · rw [if_neg hany] at hj
              exact Nat.lt_succ_of_lt (hb j hj)
          obtain ⟨fs1, hl1, hlen1, hb1⟩ := ih6 s fs0' hlm hb'
          have hlen0' : fs0'.length = fs0.length +
              (if fr.detections.any (fun e => e.class_name = s) then 1 else 0) := by
            rw [hfs0']
            by_cases hany : fr.detections.any (fun e => e.class_name = s)
            · rw [if_pos hany, if_pos hany]
              exact addIdx_length i fs0 (fun hin => Nat.lt_irrefl i (hb i hin))
            · rw [if_neg hany, if_neg hany]
              omega
          refine ⟨fs1, hl1, ?_, ?_⟩
          · rw [hlen1, hlen0', coverCount_cons]
            omega
          · intro j hj
            have := hb1 j hj
            simpa [Nat.add_assoc, Nat.add_comm 1] using this

theorem runFrames_total :
    ∀ (fs : List Frame) (i : Nat) (st : VState),
      (∀ fr ∈ fs, ∀ d ∈ fr.detections, d.class_name ∈ st.species_counts.map Prod.fst) →
      st.species_frames.map Prod.fst = st.species_counts.map Prod.fst →
      (runFrames i fs st).isSome := by
  intro fs
  induction fs with
  | nil =>
      intro i st _ _
      rfl
  | cons fr rest ih =>
      intro i st hmem hkeys
      have h1 : (stepFrame i fr st).isSome :=
        stepFrame_isSome i fr st (hmem fr (List.mem_cons_self _ _)) hkeys
      obtain ⟨stm, hstm⟩ := Option.isSome_iff_exists.mp h1
      simp only [runFrames, hstm, Option.some_bind]
      rcases stepFrame_char i fr st stm hstm with
        ⟨_, hc, hf, _⟩ | ⟨_, out, hout, hc, hf, _⟩
      · apply ih
        · intro g hg d hd
          rw [hc]
          exact hmem g (List.mem_cons_of_mem _ hg) d hd
        · rw [hc, hf]
          exact hkeys
      · obtain ⟨pk1, pk2, _, _, _⟩ := procDets_spec i fr.detections
          st.species_counts st.species_frames [] out hout
        apply ih
        · intro g hg d hd
          rw [hc, pk1]
          exact hmem g (List.mem_cons_of_mem _ hg) d hd
        · rw [hc, hf, pk1, pk2]
          exact hkeys

theorem runFrames_allEmpty :
    ∀ (fs : List Frame) (i : Nat) (st : VState),
      (∀ fr ∈ fs, fr.detections = []) →
      st.current_cluster.species = none →
      runFrames i fs st =
        some { st with frames_without_detection :=
                 st.frames_without_detection + fs.length } := by
  intro fs
  induction fs with
  | nil =>
      intro i st _ _
      rfl
  | cons fr rest ih =>
      intro i st hall hcc
      have hd : fr.detections = [] := hall fr (List.mem_cons_self _ _)
      have he : fr.detections.isEmpty = true := by simp [hd]
      have hcond : ¬ (CONSECUTIVE_EMPTY_FRAMES ≤ st.frames_without_detection + 1 ∧
          truthyStr st.current_cluster.species = true) := by
        rintro ⟨-, ht⟩
        rw [hcc] at ht
        simp [truthyStr] at ht
      simp only [runFrames, stepFrame, he, if_true, if_neg hcond, Option.some_bind]
      have hrw := ih (i + 1)
        { st with frames_without_detection := st.frames_without_detection + 1 }
        (fun g hg => hall g (List.mem_cons_of_mem _ hg)) hcc
      rw [hrw]
      simp only [List.length_cons, Option.some.injEq, VState.mk.injEq, and_true,
        true_and]
      omega

theorem detCountIn_pos_nonEmpty (s : String) :
    ∀ fd : List Frame, 0 < detCountIn s fd →
      0 < (fd.filter (fun fr => !fr.detections.isEmpty)).length := by
  intro fd
  induction fd with
  | nil => simp [detCountIn]
  | cons fr rest ih =>
      intro h
      rw [detCountIn_cons] at h
      rw [List.filter_cons]
      by_cases hfr : 0 < (fr.detections.filter (fun e => e.class_name = s)).length
      · have hne : fr.detections ≠ [] := by
          intro hcon
          rw [hcon] at hfr
          simp at hfr
        have : (!fr.detections.isEmpty) = true := by simp [hne]
        simp [this]
      · have hrest : 0 < detCountIn s rest := by omega
        have := ih hrest
        split
        · simp
        · exact this

theorem coverCount_pos_detCount_pos (s : String) :
    ∀ fd : List Frame, 0 < coverCount s fd → 0 < detCountIn s fd := by
  intro fd
  induction fd with
  | nil => simp [coverCount, detCountIn]
  | cons fr rest ih =>
      intro h
      rw [coverCount_cons] at h
      rw [detCountIn_cons]
      by_cases hany : fr.detections.any (fun e => e.class_name = s)
      · obtain ⟨d, hd, hds⟩ := List.any_eq_true.mp hany
        have : d ∈ fr.detections.filter (fun e => e.class_name = s) :=
          List.mem_filter.mpr ⟨hd, hds⟩
        have := List.length_pos.mpr (List.ne_nil_of_mem this)
        omega
      · rw [if_neg hany] at h
        have := ih (by omega)
        omega

theorem detCountIn_eq_zero_of_allEmpty (s : String) :
    ∀ fd : List Frame, (∀ fr ∈ fd, fr.detections = []) → detCountIn s fd = 0 := by
  intro fd
  induction fd with
  | nil => simp [detCountIn]
  | cons fr rest ih =>
      intro hall
      rw [detCountIn_cons, hall fr (List.mem_cons_self _ _)]
      simp [ih (fun g hg => hall g (List.mem_cons_of_mem _ hg))]

/-! ### Image analyzer lemmas -/

theorem buildImageCounts_inv :
    ∀ (ds : List Detection) counts confs,
      counts.map Prod.fst = confs.map Prod.fst →
      (∀ p ∈ counts, 1 ≤ p.2) →
      ((buildImageCounts ds counts confs).1.map Prod.fst =
        (buildImageCounts ds counts confs).2.map Prod.fst) ∧
      (∀ p ∈ (buildImageCounts ds counts confs).1, 1 ≤ p.2) := by
  intro ds
  induction ds with
  | nil =>
      intro counts confs hk hv
      exact ⟨hk, hv⟩
  | cons d ds ih =>
      intro counts confs hk hv
      simp only [buildImageCounts]
      apply ih
      · rw [bumpNew_keys, appendConf_keys, hk]
      · exact bumpNew_pos d.class_name counts hv

/-! ### Inversion helpers -/

theorem initState_counts_keys (cn : List String) :
    (initState cn).species_counts.map Prod.fst = dedupKeys cn := by
  simp only [initState, List.map_map]
  exact List.map_id _

theorem initState_frames_keys (cn : List String) :
    (initState cn).species_frames.map Prod.fst = dedupKeys cn := by
  simp only [initState, List.map_map]
  exact List.map_id _

theorem initState_counts_lookup (cn : List String) (s : String) :
    lookupS s (initState cn).species_counts =
      if s ∈ dedupKeys cn then some 0 else none :=
  lookupS_map_const s 0 (dedupKeys cn)

theorem initState_frames_lookup (cn : List String) (s : String) :
    lookupS s (initState cn).species_frames =
      if s ∈ dedupKeys cn then some [] else none :=
  lookupS_map_const s ([] : List Nat) (dedupKeys cn)

theorem analyze_detections_ne_one (fd : List Frame) (cn : List String)
    (h : fd.length ≠ 1) :
    analyze_detections fd cn = analyzeVideoDetections fd cn := by
  cases fd with
  | nil => rfl
  | cons a tail =>
      cases tail with
      | nil => simp at h
      | cons b t2 => rfl

theorem analyzeVideo_inv (fd : List Frame) (cn : List String) (r : AnalysisResult) :
    analyzeVideoDetections fd cn = some r →
    ∃ st, runFrames 0 fd (initState cn) = some st ∧
      r.total_frames = fd.length ∧
      r.frames_with_detections = st.frames_with_detections ∧
      r.detection_rate = (if 0 < fd.length
        then mkRat st.frames_with_detections fd.length else 0) ∧
      r.species_counts = st.species_counts ∧
      r.species_percentages = speciesPercentagesOf st.species_counts ∧
      r.species_frame_percentages =
        speciesFramePercentagesOf st.species_frames fd.length ∧
      r.species_transitions = st.species_transitions ∧
      r.classification = (classifyVideo st.frames_with_detections
        (hasPredator st.species_counts && hasPrey st.species_counts)
        st.species_transitions
        (significantSpeciesOf
          (speciesFramePercentagesOf st.species_frames fd.length)).length
        (maxKey st.species_counts) (speciesPercentagesOf st.species_counts)).1 ∧
      r.reason = (classifyVideo st.frames_with_detections
        (hasPredator st.species_counts && hasPrey st.species_counts)
        st.species_transitions
        (significantSpeciesOf
          (speciesFramePercentagesOf st.species_frames fd.length)).length
        (maxKey st.species_counts) (speciesPercentagesOf st.species_counts)).2 := by
  intro h
  simp only [analyzeVideoDetections, Option.map_eq_some'] at h
  obtain ⟨st, hst, hr⟩ := h
  subst hr
  exact ⟨st, hst, rfl, rfl, rfl, rfl, rfl, rfl, rfl, rfl, rfl⟩

/-! ### Concrete sample inputs used by witnesses and counterexamples -/

/-- A Wolf detection at confidence 0.8. -/
def wolfDet : Detection := ⟨"Wolf", mkRat 8 10⟩

/-- An Elk detection at confidence 0.8. -/
def elkDet : Detection := ⟨"Elk", mkRat 8 10⟩

/-- A Cougar detection at confidence 0.8. -/
def cougarDet : Detection := ⟨"Cougar", mkRat 8 10⟩

/-- A frame holding one Wolf detection. -/
def wolfFrame : Frame := ⟨[wolfDet]⟩

/-- A frame holding one Elk detection. -/
def elkFrame : Frame := ⟨[elkDet]⟩

/-- Two frames: one Wolf detection, then one Elk detection. -/
def fdC1 : List Frame := [wolfFrame, elkFrame]

/-! ### Claims -/

/-- C1: for every frame sequence of length ≥ 2 on which `analyze_detections`
returns, containing at least one detection of a predator-set species and at
least one of a prey-set species anywhere, the classification is `"Unsorted"`
with the predator-and-prey reason, regardless of dominance or transition
counts. -/
theorem predator_prey_precedence_video :
    ∀ (fd : List Frame) (cn : List String) (r : AnalysisResult),
      analyze_detections fd cn = some r → 2 ≤ fd.length →
      (∃ p ∈ PREDATORS, 0 < detCountIn p fd) →
      (∃ q ∈ PREY, 0 < detCountIn q fd) →
      r.classification = "Unsorted" ∧ r.reason = Reason.predatorPrey := by
  intro fd cn r h hlen hp hq
  obtain ⟨p, hpmem, hpc⟩ := hp
  obtain ⟨q, hqmem, hqc⟩ := hq
  have hne : fd.length ≠ 1 := by omega
  rw [analyze_detections_ne_one fd cn hne] at h
  obtain ⟨st, hst, -, -, -, -, -, -, -, hcls, hrsn⟩ := analyzeVideo_inv fd cn r h
  obtain ⟨k1, k2, w3, c4, m5, f6⟩ := runFrames_spec fd 0 (initState cn) st hst
  have hpkey : p ∈ dedupKeys cn := by
    have := m5 p hpc
    rw [initState_counts_keys] at this
    exact this
  have hqkey : q ∈ dedupKeys cn := by
    have := m5 q hqc
    rw [initState_counts_keys] at this
    exact this
  have hplook : lookupS p st.species_counts = some (0 + detCountIn p fd) := by
    rw [c4 p, initState_counts_lookup, if_pos hpkey]
    rfl
  have hqlook : lookupS q st.species_counts = some (0 + detCountIn q fd) := by
    rw [c4 q, initState_counts_lookup, if_pos hqkey]
    rfl
  have hppos : countPos st.species_counts p = true := by
    simp only [countPos, hplook]
    simp
    omega
  have hqpos : countPos st.species_counts q = true := by
    simp only [countPos, hqlook]
    simp
    omega
  have hpred : hasPredator st.species_counts = true :=
    List.any_eq_true.mpr ⟨p, hpmem, hppos⟩
  have hprey : hasPrey st.species_counts = true :=
    List.any_eq_true.mpr ⟨q, hqmem, hqpos⟩
  have hfwdpos : st.frames_with_detections ≠ 0 := by
    have hpos := detCountIn_pos_nonEmpty p fd hpc
    have h0 : (initState cn).frames_with_detections = 0 := rfl
    rw [w3, h0]
    omega
  constructor
  · rw [hcls]
    simp [classifyVideo, hfwdpos, hpred, hprey]
  · rw [hrsn]
    simp [classifyVideo, hfwdpos, hpred, hprey]

/-- Witness for C1: the concrete Wolf-then-Elk two-frame sequence is
classified `"Unsorted"` with the predator-and-prey reason. -/
theorem predator_prey_precedence_video_witness :
    analyze_detections fdC1 ["Wolf", "Elk"] =
      some ((analyze_detections fdC1 ["Wolf", "Elk"]).getD default) ∧
    ((analyze_detections fdC1 ["Wolf", "Elk"]).getD default).classification =
      "Unsorted" ∧
    ((analyze_detections fdC1 ["Wolf", "Elk"]).getD default).reason =
      Reason.predatorPrey := by
  have happ := predator_prey_precedence_video fdC1 ["Wolf", "Elk"]
    ((analyze_detections fdC1 ["Wolf", "Elk"]).getD default) rfl (by decide)
    ⟨"Wolf", by decide, by decide⟩ ⟨"Elk", by decide, by decide⟩
  exact ⟨rfl, happ.1, happ.2⟩

/-- C2: in the video path, when no earlier rule fires, the species with the
maximal detection count is the classification exactly when its detection
share reaches `DOMINANT_SPECIES_THRESHOLD`; strictly below the threshold the
classification is `"Unsorted"`. -/
theorem dominant_threshold_video :
    ∀ (fd : List Frame) (cn : List String) (r : AnalysisResult),
      analyze_detections fd cn = some r → 2 ≤ fd.length →
      0 < r.frames_with_detections →
      ¬(hasPredator r.species_counts = true ∧ hasPrey r.species_counts = true) →
      ¬(MAX_SPECIES_TRANSITIONS < r.species_transitions ∧
        1 < (significantSpeciesOf r.species_frame_percentages).length) →
      ∀ d, maxKey r.species_counts = some d → d ≠ "" →
        (DOMINANT_SPECIES_THRESHOLD ≤ (lookupS d r.species_percentages).getD 0 →
          r.classification = d) ∧
        ((lookupS d r.species_percentages).getD 0 < DOMINANT_SPECIES_THRESHOLD →
          r.classification = "Unsorted") := by
  intro fd cn r h hlen hfwd hconf htrans d hdom hdne
  have hne : fd.length ≠ 1 := by omega
  rw [analyze_detections_ne_one fd cn hne] at h
  obtain ⟨st, hst, -, hfwdE, -, hcountsE, hspE, hsfpE, htransE, hcls, hrsn⟩ :=
    analyzeVideo_inv fd cn r h
  rw [hcountsE] at hconf hdom
  have hfwdne : st.frames_with_detections ≠ 0 := by
    rw [hfwdE] at hfwd
    omega
  have hconfb : (hasPredator st.species_counts && hasPrey st.species_counts) = false := by
    rw [← Bool.not_eq_true, Bool.and_eq_true]
    exact hconf
  have htransb : ¬(MAX_SPECIES_TRANSITIONS < st.species_transitions ∧
      1 < (significantSpeciesOf
        (speciesFramePercentagesOf st.species_frames fd.length)).length) := by
    rw [← htransE, ← hsfpE]
    exact htrans
  constructor
  · intro hge
    rw [hspE] at hge
    rw [hcls]
    simp only [classifyVideo, if_neg hfwdne, hconfb, Bool.false_eq_true, if_false,
      if_neg htransb, hdom]
    rw [if_pos ⟨hdne, hge⟩]
  · intro hlt
    rw [hspE] at hlt
    rw [hcls]
    simp only [classifyVideo, if_neg hfwdne, hconfb, Bool.false_eq_true, if_false,
      if_neg htransb, hdom]
    rw [if_neg (fun hcond => absurd hcond.2 (not_le.mpr hlt))]

/-- Two frames: nine Wolf detections then one Cougar detection (Wolf share
exactly 0.9). -/
def fdC2a : List Frame :=
  [⟨[wolfDet, wolfDet, wolfDet, wolfDet, wolfDet, wolfDet, wolfDet, wolfDet,
     wolfDet]⟩, ⟨[cougarDet]⟩]

/-- Two frames: eight Wolf detections then two Cougar detections (Wolf share
0.8, strictly below the threshold). -/
def fdC2b : List Frame :=
  [⟨[wolfDet, wolfDet, wolfDet, wolfDet, wolfDet, wolfDet, wolfDet, wolfDet]⟩,
   ⟨[cougarDet, cougarDet]⟩]

/-- Witness for C2: share exactly 0.9 classifies as Wolf, share 0.8 as
`"Unsorted"`, on concrete two-frame sequences. -/
theorem dominant_threshold_video_witness :
    ((analyze_detections fdC2a ["Wolf", "Cougar"]).getD default).classification =
      "Wolf" ∧
    ((analyze_detections fdC2b ["Wolf", "Cougar"]).getD default).classification =
      "Unsorted" := by
  constructor
  · exact (dominant_threshold_video fdC2a ["Wolf", "Cougar"]
      ((analyze_detections fdC2a ["Wolf", "Cougar"]).getD default) rfl
      (by decide) (by decide) (by decide) (by decide) "Wolf" (by decide)
      (by decide)).1 (by decide)
  · exact (dominant_threshold_video fdC2b ["Wolf", "Cougar"]
      ((analyze_detections fdC2b ["Wolf", "Cougar"]).getD default) rfl
      (by decide) (by decide) (by decide) (by decide) "Wolf" (by decide)
      (by decide)).2 (by decide)

/-- C3: in the image path, a maximal confidence inside the closed band
`[IMAGE_UNSORTED_MIN_CONFIDENCE, IMAGE_UNSORTED_MAX_CONFIDENCE]` forces
`"Unsorted"` whenever the minimum-detection check passes, even for a single
species; and with a single detected species whose maximal confidence is
strictly above the band the classification is that species. -/
theorem image_confidence_band :
    ∀ (fr : Frame) (cn : List String),
      (IMAGE_MIN_DETECTIONS ≤ totalOf (buildImageCounts fr.detections [] []).1 →
        IMAGE_UNSORTED_MIN_CONFIDENCE ≤
          maxConfidenceOf (buildImageCounts fr.detections [] []).2 →
        maxConfidenceOf (buildImageCounts fr.detections [] []).2 ≤
          IMAGE_UNSORTED_MAX_CONFIDENCE →
        (analyze_image_detections fr cn).classification = "Unsorted") ∧
      (∀ (s : String) (k : Nat),
        (buildImageCounts fr.detections [] []).1 = [(s, k)] →
        IMAGE_UNSORTED_MAX_CONFIDENCE <
          maxConfidenceOf (buildImageCounts fr.detections [] []).2 →
        (analyze_image_detections fr cn).classification = s) := by
  intro fr cn
  constructor
  · intro hmin hlo hhi
    show (classifyImage (buildImageCounts fr.detections [] []).1
      (avgConfidences (buildImageCounts fr.detections [] []).2)
      (totalOf (buildImageCounts fr.detections [] []).1)
      (maxConfidenceOf (buildImageCounts fr.detections [] []).2)).1 = "Unsorted"
    rw [classifyImage.eq_def]
    rw [if_neg (not_lt.mpr hmin), if_pos ⟨hlo, hhi⟩]
  · intro s k hcounts hgt
    have hk : 1 ≤ k := by
      have hinv := (buildImageCounts_inv fr.detections [] [] rfl (by simp)).2
      exact hinv (s, k) (by rw [hcounts]; exact List.mem_cons_self _ _)
    show (classifyImage (buildImageCounts fr.detections [] []).1
      (avgConfidences (buildImageCounts fr.detections [] []).2)
      (totalOf (buildImageCounts fr.detections [] []).1)
      (maxConfidenceOf (buildImageCounts fr.detections [] []).2)).1 = s
    rw [hcounts]
    have htot : totalOf [(s, k)] = k := by simp [totalOf]
    rw [classifyImage.eq_def, htot]
    rw [if_neg (by simp only [IMAGE_MIN_DETECTIONS]; omega),
      if_neg (fun hc => absurd hc.2 (not_le.mpr hgt))]

/-- A frame with one Wolf detection at confidence exactly 0.35. -/
def frameBandLo : Frame := ⟨[⟨"Wolf", mkRat 35 100⟩]⟩

/-- A frame with one Wolf detection at confidence 0.66, above the band. -/
def frameAboveBand : Frame := ⟨[⟨"Wolf", mkRat 66 100⟩]⟩

/-- Witness for C3: confidence exactly 0.35 gives `"Unsorted"`, confidence
0.66 with a single species gives that species. -/
theorem image_confidence_band_witness :
    (analyze_image_detections frameBandLo ["Wolf"]).classification =
      "Unsorted" ∧
    (analyze_image_detections frameAboveBand ["Wolf"]).classification =
      "Wolf" := by
  constructor
  · exact (image_confidence_band frameBandLo ["Wolf"]).1 (by decide) (by decide)
      (by decide)
  · exact (image_confidence_band frameAboveBand ["Wolf"]).2 "Wolf" 1 (by decide)
      (by decide)

/-- C5: a multi-frame sequence whose frames all have empty detection lists
classifies as `"No_Animal"`, and so does a single frame with an empty
detection list in the image path. -/
theorem no_detections_no_animal :
    (∀ (fd : List Frame) (cn : List String), 2 ≤ fd.length →
      (∀ fr ∈ fd, fr.detections = []) →
      (analyze_detections fd cn).map AnalysisResult.classification =
        some "No_Animal") ∧
    (∀ (fr : Frame) (cn : List String), fr.detections = [] →
      (analyze_image_detections fr cn).classification = "No_Animal") := by
  constructor
  · intro fd cn hlen hall
    rw [analyze_detections_ne_one fd cn (by omega)]
    have hrun := runFrames_allEmpty fd 0 (initState cn) hall rfl
    simp only [analyzeVideoDetections, hrun, Option.map_some', classifyVideo]
    have h0 : (initState cn).frames_with_detections = 0 := rfl
    rw [h0]
    simp
  · intro fr cn hdet
    obtain ⟨dets⟩ := fr
    simp only at hdet
    subst hdet
    rfl

theorem sfp_map_nil (n : Nat) :
    ∀ l : List String,
      speciesFramePercentagesOf (l.map (fun m => (m, ([] : List Nat)))) n = [] := by
  intro l
  induction l with
  | nil => rfl
  | cons a as ih =>
      simp only [speciesFramePercentagesOf] at ih ⊢
      simp only [List.map_cons, List.filter_cons]
      simpa using ih

/-- C9: on the empty frame sequence the analyzer still returns, with
`detection_rate = 0`, empty percentage maps and classification
`"No_Animal"`; and with no detections at all no division is performed
(`detection_rate = 0`, empty percentage maps). -/
theorem division_safety_degenerate :
    (∀ cn : List String,
      (analyze_detections [] cn).map (fun r =>
        (r.detection_rate, r.species_percentages, r.species_frame_percentages,
          r.classification)) = some (0, [], [], "No_Animal")) ∧
    (∀ (fd : List Frame) (cn : List String), 2 ≤ fd.length →
      (∀ fr ∈ fd, fr.detections = []) →
      (analyze_detections fd cn).map (fun r =>
        (r.detection_rate, r.species_percentages, r.species_frame_percentages)) =
        some (0, [], [])) := by
  have hpct : ∀ cn : List String,
      speciesPercentagesOf (initState cn).species_counts = [] := by
    intro cn
    simp only [speciesPercentagesOf]
    rw [show totalOf (initState cn).species_counts = 0 from totalOf_init cn]
    simp
  have hsfp : ∀ (cn : List String) (n : Nat),
      speciesFramePercentagesOf (initState cn).species_frames n = [] := by
    intro cn n
    exact sfp_map_nil n (dedupKeys cn)
  constructor
  · intro cn
    have hrun : runFrames 0 ([] : List Frame) (initState cn) = some (initState cn) :=
      rfl
    have hdisp : analyze_detections [] cn = analyzeVideoDetections [] cn := rfl
    rw [hdisp]
    simp only [analyzeVideoDetections, hrun, Option.map_some', classifyVideo]
    have h0 : (initState cn).frames_with_detections = 0 := rfl
    rw [h0, hpct cn, hsfp cn]
    simp
  · intro fd cn hlen hall
    rw [analyze_detections_ne_one fd cn (by omega)]
    have hrun := runFrames_allEmpty fd 0 (initState cn) hall rfl
    simp only [analyzeVideoDetections, hrun, Option.map_some']
    have h0 : (initState cn).frames_with_detections = 0 := rfl
    rw [h0, hpct cn, hsfp cn]
    simp

/-- Two frames whose first contains a detection of a species (`"Dog"`) that
is not a value of the class-name map. -/
def fdC4 : List Frame := [⟨[⟨"Dog", mkRat 9 10⟩]⟩, ⟨[]⟩]

/-- Counterexample to C4: on a well-typed multi-frame input containing a
detection whose class name is not among the class-name values, the video
analyzer raises a `KeyError` (modelled as `none`) instead of returning. -/
theorem analyze_total_counterexample :
    analyze_detections fdC4 ["Wolf"] = none := rfl

/-- C4 amended: `analyze_detections` returns a result on every well-typed
input in which each detection's class name is a value of the class-name map
(single-frame inputs never raise even without that condition); a multi-frame
input violating it raises `KeyError`. -/
theorem analyze_total_amended :
    ∀ (fd : List Frame) (cn : List String),
      (∀ fr ∈ fd, ∀ d ∈ fr.detections, d.class_name ∈ cn) →
      (analyze_detections fd cn).isSome := by
  intro fd cn hwf
  cases fd with
  | nil => rfl
  | cons a tail =>
      cases tail with
      | nil => rfl
      | cons b t2 =>
          show (analyzeVideoDetections (a :: b :: t2) cn).isSome
          have hr := runFrames_total (a :: b :: t2) 0 (initState cn)
            (by
              intro fr hfr d hd
              rw [initState_counts_keys]
              exact (dedupKeys_mem _ cn).mpr (hwf fr hfr d hd))
            (initState_frames_keys cn |>.trans (initState_counts_keys cn).symm)
          obtain ⟨st, hst⟩ := Option.isSome_iff_exists.mp hr
          simp [analyzeVideoDetections, hst]

/-- Witness for C4 amended: the Wolf-then-Elk sequence with matching class
names yields a result. -/
theorem analyze_total_amended_witness :
    (analyze_detections fdC1 ["Wolf", "Elk"]).isSome :=
  analyze_total_amended fdC1 ["Wolf", "Elk"] (by decide)

/-- One frame with one Wolf and one Cougar detection. -/
def frameTwoSpecies : Frame := ⟨[wolfDet, cougarDet]⟩

/-- Counterexample to C6: in the single-frame image path
`species_frame_percentages` is the detection share, not the frame-coverage
fraction: with two species in the one frame, Wolf gets 1/2 although the
fraction of frames containing Wolf is 1. -/
theorem sfp_counterexample :
    (analyze_detections [frameTwoSpecies] ["Wolf", "Cougar"]).map
      (fun r => lookupS "Wolf" r.species_frame_percentages) =
      some (some (mkRat 1 2)) ∧ (mkRat 1 2 : ℚ) ≠ 1 := by
  constructor
  · rfl
  · decide

/-- C6 amended: in the multi-frame (video) path `species_frame_percentages`
maps exactly the species detected somewhere to (frames containing the
species) / (total frames); in the single-frame image path it instead equals
`species_percentages` (the detection share), which is 1 for the detected
species only when a single species is present. -/
theorem sfp_semantics_amended :
    (∀ (fd : List Frame) (cn : List String) (r : AnalysisResult),
      analyze_detections fd cn = some r → fd.length ≠ 1 →
      ∀ s, (0 < coverCount s fd →
          lookupS s r.species_frame_percentages =
            some (mkRat (coverCount s fd) fd.length)) ∧
        (coverCount s fd = 0 →
          lookupS s r.species_frame_percentages = none)) ∧
    (∀ (fr : Frame) (cn : List String),
      (analyze_image_detections fr cn).species_frame_percentages =
        (analyze_image_detections fr cn).species_percentages) ∧
    (∀ (fr : Frame) (cn : List String) (s : String) (k : Nat),
      (buildImageCounts fr.detections [] []).1 = [(s, k)] →
      lookupS s (analyze_image_detections fr cn).species_frame_percentages =
        some 1) := by
  refine ⟨?_, ?_, ?_⟩
  · intro fd cn r h hne s
    rw [analyze_detections_ne_one fd cn hne] at h
    obtain ⟨st, hst, -, -, -, -, -, hsfpE, -, -, -⟩ := analyzeVideo_inv fd cn r h
    obtain ⟨k1, k2, w3, c4, m5, f6⟩ := runFrames_spec fd 0 (initState cn) st hst
    have hnd : (st.species_frames.map Prod.fst).Nodup := by
      rw [k2, initState_frames_keys]
      exact dedupKeys_nodup cn
    have hlk : lookupS s (speciesFramePercentagesOf st.species_frames fd.length) =
        (lookupS s st.species_frames).bind (fun v =>
          if (decide ¬(v.isEmpty = true)) then some (mkRat v.length fd.length)
          else none) :=
      lookupS_filter_map (fun fs : List Nat => decide ¬(fs.isEmpty = true))
        (fun fs => mkRat fs.length fd.length) s st.species_frames hnd
    constructor
    · intro hc
      have hdet := coverCount_pos_detCount_pos s fd hc
      have hkey : s ∈ dedupKeys cn := by
        have := m5 s hdet
        rw [initState_counts_keys] at this
        exact this
      have hinit : lookupS s (initState cn).species_frames = some [] := by
        rw [initState_frames_lookup, if_pos hkey]
      obtain ⟨fs1, hl1, hlen1, hb1⟩ := f6 s [] hinit (by simp)
      have hlen : fs1.length = coverCount s fd := by
        rw [hlen1]
        simp
      have hne0 : fs1 ≠ [] := by
        intro hcon
        rw [hcon] at hlen
        simp at hlen
        omega
      have hne1 : fs1.isEmpty = false := by simp [hne0]
      rw [hsfpE, hlk, hl1]
      simp [hne1, hlen, hne0]
    · intro hc0
      by_cases hkey : s ∈ dedupKeys cn
      · have hinit : lookupS s (initState cn).species_frames = some [] := by
          rw [initState_frames_lookup, if_pos hkey]
        obtain ⟨fs1, hl1, hlen1, -⟩ := f6 s [] hinit (by simp)
        have hfs1 : fs1 = [] := by
          rw [hc0] at hlen1
          simp only [List.length_nil, Nat.add_zero, Nat.zero_add] at hlen1
          exact List.length_eq_zero.mp hlen1
        subst hfs1
        rw [hsfpE, hlk, hl1]
        simp
      · have hnone : lookupS s st.species_frames = none := by
          rw [lookupS_eq_none, k2, initState_frames_keys]
          exact hkey
        rw [hsfpE, hlk, hnone]
        rfl
  · intro fr cn
    rfl
  · intro fr cn s k hcounts
    have hk : 1 ≤ k := by
      have hinv := (buildImageCounts_inv fr.detections [] [] rfl (by simp)).2
      exact hinv (s, k) (by rw [hcounts]; exact List.mem_cons_self _ _)
    show lookupS s (if 0 < totalOf (buildImageCounts fr.detections [] []).1 then
        (buildImageCounts fr.detections [] []).1.map
          (fun p => (p.1, mkRat p.2 (totalOf (buildImageCounts fr.detections [] []).1)))
      else []) = some 1
    rw [hcounts]
    have htot : totalOf [(s, k)] = k := by simp [totalOf]
    rw [htot, if_pos (by omega)]
    have hmk : (mkRat k k : ℚ) = 1 := by
      rw [Rat.mkRat_eq_div]
      have hkne : k ≠ 0 := by omega
      have hk0 : ((k : ℤ) : ℚ) ≠ 0 := by
        push_cast
        exact_mod_cast hkne
      exact div_self hk0
    simp [lookupS, hmk]

/-- Twenty frames alternating one Wolf detection and one Elk detection. -/
def fdC7 : List Frame :=
  [wolfFrame, elkFrame, wolfFrame, elkFrame, wolfFrame, elkFrame, wolfFrame,
   elkFrame, wolfFrame, elkFrame, wolfFrame, elkFrame, wolfFrame, elkFrame,
   wolfFrame, elkFrame, wolfFrame, elkFrame, wolfFrame, elkFrame]

/-- Counterexample to C7: on the 20-frame alternating Wolf/Elk sequence the
analyzer computes 19 species transitions (the dominant species changes at
every one of frames 1..19), not 10. -/
theorem scenarioB_counterexample :
    (analyze_detections fdC7 ["Wolf", "Elk"]).map
      (fun r => r.species_transitions) = some 19 ∧ (19 : Nat) ≠ 10 := by
  constructor
  · rfl
  · decide

/-- C7 amended: on the 20-frame alternating Wolf/Elk sequence the analyzer
computes `species_transitions = 19` (which exceeds
`MAX_SPECIES_TRANSITIONS = 5`) and two significant species, and classifies
the sequence `"Unsorted"` — though by the predator-prey rule (Wolf is a
predator, Elk is prey), which takes precedence over the transition rule. -/
theorem scenarioB_amended :
    (analyze_detections fdC7 ["Wolf", "Elk"]).map (fun r =>
      (r.species_transitions,
        (significantSpeciesOf r.species_frame_percentages).length,
        r.classification, r.reason)) =
      some (19, 2, "Unsorted", Reason.predatorPrey) ∧
    MAX_SPECIES_TRANSITIONS < 19 := by
  constructor
  · rfl
  · decide

/-- C8: the folder resolver sends `"Unsorted"` and `"No_Animal"` to fixed
top-level buckets, a label occurring in exactly one taxonomy category to
`Sorted/<category>/<label>`, and a label absent from the taxonomy to the
stable `Sorted/Other/<label>` path; as a pure function of its arguments the
result is identical on every repeated call. -/
theorem species_folder_path_resolution :
    (∀ (base : List String) (tax : List (String × List String)),
      get_species_folder_path base "Unsorted" tax = base ++ ["Unsorted"]) ∧
    (∀ (base : List String) (tax : List (String × List String)),
      get_species_folder_path base "No_Animal" tax = base ++ ["No_Animal"]) ∧
    (∀ (base : List String) (s cat : String) (tax : List (String × List String)),
      s ≠ "Unsorted" → s ≠ "No_Animal" →
      (tax.filter (fun p => s ∈ p.2)).map Prod.fst = [cat] →
      get_species_folder_path base s tax = base ++ ["Sorted", cat, s]) ∧
    (∀ (base : List String) (s : String) (tax : List (String × List String)),
      s ≠ "Unsorted" → s ≠ "No_Animal" → (∀ p ∈ tax, s ∉ p.2) →
      get_species_folder_path base s tax = base ++ ["Sorted", "Other", s]) := by
  refine ⟨?_, ?_, ?_, ?_⟩
  · intro base tax
    simp [get_species_folder_path]
  · intro base tax
    simp [get_species_folder_path]
  · intro base s cat tax h1 h2 hu
    rw [get_species_folder_path.eq_def, if_neg h1, if_neg h2,
      findCategory_of_unique s cat tax hu]
  · intro base s tax h1 h2 ha
    rw [get_species_folder_path.eq_def, if_neg h1, if_neg h2,
      findCategory_of_absent s tax ha]

/-- Witness for C8: Wolf resolves into the Predators category and the
unknown label Dog into the dynamic Other category of the built-in taxonomy. -/
theorem species_folder_path_resolution_witness :
    get_species_folder_path ["base"] "Wolf" TAXONOMY =
      ["base", "Sorted", "Predators", "Wolf"] ∧
    get_species_folder_path ["base"] "Dog" TAXONOMY =
      ["base", "Sorted", "Other", "Dog"] := by
  constructor
  · exact species_folder_path_resolution.2.2.1 ["base"] "Wolf" "Predators"
      TAXONOMY (by decide) (by decide) (by decide)
  · exact species_folder_path_resolution.2.2.2 ["base"] "Dog" TAXONOMY
      (by decide) (by decide) (by decide)

theorem avgConfidences_keys (confs : List (String × List ℚ)) :
    (avgConfidences confs).map Prod.fst = confs.map Prod.fst := by
  simp [avgConfidences]

theorem lookupS_getD_pos_of_mem (s : String) (l : List (String × Nat))
    (hs : s ∈ l.map Prod.fst) (hv : ∀ p ∈ l, 1 ≤ p.2) :
    0 < (lookupS s l).getD 0 := by
  obtain ⟨v, hv'⟩ := Option.isSome_iff_exists.mp ((lookupS_isSome s l).mpr hs)
  have h1 := hv (s, v) (lookupS_mem s v l hv')
  rw [hv']
  simpa using h1

theorem classifyImage_label (counts : List (String × Nat))
    (avg : List (String × ℚ)) (total : Nat) (maxc : ℚ) :
    (classifyImage counts avg total maxc).1 = "No_Animal" ∨
    (classifyImage counts avg total maxc).1 = "Unsorted" ∨
    (classifyImage counts avg total maxc).1 ∈ counts.map Prod.fst ∨
    (classifyImage counts avg total maxc).1 ∈ avg.map Prod.fst := by
  rw [classifyImage.eq_def]
  split
  · left; rfl
  · split
    · right; left; rfl
    · split
      · left; rfl
      · right; right; left
        simp
      · dsimp only
        split
        · rename_i hs hc ss sc tl heq
          split
          · right; left; rfl
          · split
            · right; right; right
              have hmem : (hs, hc) ∈ sortAvgDesc avg := by
                rw [heq]
                exact List.mem_cons_self _ _
              have hin := sortAvgDesc_mem (hs, hc) avg hmem
              exact List.mem_map.mpr ⟨(hs, hc), hin, rfl⟩
            · right; left; rfl
        · left; rfl

/-- C10: whenever the analysis returns, the classification is
`"No_Animal"`, `"Unsorted"`, or a species whose entry in the returned
`species_counts` is strictly positive. -/
theorem classification_label_invariant :
    ∀ (fd : List Frame) (cn : List String) (r : AnalysisResult),
      analyze_detections fd cn = some r →
      r.classification = "No_Animal" ∨ r.classification = "Unsorted" ∨
      0 < (lookupS r.classification r.species_counts).getD 0 := by
  intro fd cn r h
  cases fd with
  | cons a tail =>
    cases tail with
    | nil =>
        -- image path
        have hr : r = analyze_image_detections a cn := by
          simpa [analyze_detections] using h.symm
        subst hr
        have hinv := buildImageCounts_inv a.detections [] [] rfl (by simp)
        have hkeys : (avgConfidences (buildImageCounts a.detections [] []).2).map
            Prod.fst = (buildImageCounts a.detections [] []).1.map Prod.fst := by
          rw [avgConfidences_keys]
          exact hinv.1.symm
        rcases classifyImage_label (buildImageCounts a.detections [] []).1
          (avgConfidences (buildImageCounts a.detections [] []).2)
          (totalOf (buildImageCounts a.detections [] []).1)
          (maxConfidenceOf (buildImageCounts a.detections [] []).2) with
          hl | hl | hl | hl
        · exact Or.inl hl
        · exact Or.inr (Or.inl hl)
        · exact Or.inr (Or.inr (lookupS_getD_pos_of_mem _ _ hl hinv.2))
        · rw [hkeys] at hl
          exact Or.inr (Or.inr (lookupS_getD_pos_of_mem _ _ hl hinv.2))
    | cons b t2 =>
        -- video path
        have h' : analyzeVideoDetections (a :: b :: t2) cn = some r := h
        obtain ⟨st, hst, -, -, -, hcountsE, -, -, -, hcls, -⟩ :=
          analyzeVideo_inv (a :: b :: t2) cn r h'
        obtain ⟨k1, -, -, -, -, -⟩ :=
          runFrames_spec (a :: b :: t2) 0 (initState cn) st hst
        have hnd : (st.species_counts.map Prod.fst).Nodup := by
          rw [k1, initState_counts_keys]
          exact dedupKeys_nodup cn
        rw [hcls, hcountsE]
        rw [classifyVideo.eq_def]
        split
        · left; rfl
        · split
          · right; left; rfl
          · split
            · right; left; rfl
            · split
              · rename_i d hd
                split
                · rename_i hcond
                  right; right
                  -- from the threshold condition, d has a positive count
                  have hthr := hcond.2
                  by_cases htot : 0 < totalOf st.species_counts
                  · have hsp : speciesPercentagesOf st.species_counts =
                        (st.species_counts.filter (fun p => decide (0 < p.2))).map
                          (fun p => (p.1, mkRat p.2 (totalOf st.species_counts))) := by
                      simp only [speciesPercentagesOf, if_pos htot]
                    have hlk : lookupS d
                        ((st.species_counts.filter (fun p => decide (0 < p.2))).map
                          (fun p => (p.1, mkRat p.2 (totalOf st.species_counts)))) =
                        (lookupS d st.species_counts).bind (fun v =>
                          if decide (0 < v) then
                            some (mkRat v (totalOf st.species_counts))
                          else none) :=
                      lookupS_filter_map (fun v : Nat => decide (0 < v))
                        (fun v => mkRat v (totalOf st.species_counts)) d
                        st.species_counts hnd
                    rw [hsp] at hthr
                    rw [hlk] at hthr
                    by_cases hmem : d ∈ st.species_counts.map Prod.fst
                    · obtain ⟨v, hv⟩ := Option.isSome_iff_exists.mp
                        ((lookupS_isSome d st.species_counts).mpr hmem)
                      rw [hv] at hthr ⊢
                      by_cases hvpos : 0 < v
                      · simp only [Option.getD_some]
                        exact hvpos
                      · simp only [Option.some_bind, hvpos, decide_False,
                          Bool.false_eq_true, if_false, Option.getD_none] at hthr
                        exact absurd hthr (by decide)
                    · rw [(lookupS_eq_none d st.species_counts).mpr hmem] at hthr
                      simp only [Option.none_bind, Option.getD_none] at hthr
                      exact absurd hthr (by decide)
                  · have hsp0 : speciesPercentagesOf st.species_counts = [] := by
                      simp only [speciesPercentagesOf, if_neg htot]
                    rw [hsp0] at hthr
                    simp only [lookupS, Option.getD_none] at hthr
                    exact absurd hthr (by decide)
                · right; left; rfl
              · right; left; rfl
  | nil =>
      -- empty input: classification is "No_Animal"
      have h' : analyzeVideoDetections [] cn = some r := h
      obtain ⟨st, hst, -, -, -, -, -, -, -, hcls, -⟩ :=
        analyzeVideo_inv [] cn r h'
      have hstv : st = initState cn := by
        simpa [runFrames] using hst.symm
      left
      rw [hcls, hstv]
      have h0 : (initState cn).frames_with_detections = 0 := rfl
      rw [classifyVideo.eq_def, h0]
      simp

/-- A frame with an empty detection list. -/
def emptyFrame : Frame := ⟨[]⟩

/-- Witness for C5: two empty frames classify `"No_Animal"` in the video
path, and one empty frame classifies `"No_Animal"` in the image path. -/
theorem no_detections_no_animal_witness :
    (analyze_detections [emptyFrame, emptyFrame] ["Wolf"]).map
      AnalysisResult.classification = some "No_Animal" ∧
    (analyze_image_detections emptyFrame ["Wolf"]).classification =
      "No_Animal" :=
  ⟨no_detections_no_animal.1 [emptyFrame, emptyFrame] ["Wolf"] (by decide)
      (by decide),
    no_detections_no_animal.2 emptyFrame ["Wolf"] rfl⟩

/-- Witness for C6 amended, at the Wolf/Elk two-frame video and the
single-Wolf image. -/
theorem sfp_semantics_amended_witness :
    lookupS "Wolf"
      ((analyze_detections fdC1 ["Wolf", "Elk"]).getD
        default).species_frame_percentages =
      some (mkRat (coverCount "Wolf" fdC1) fdC1.length) ∧
    (analyze_image_detections wolfFrame ["Wolf"]).species_frame_percentages =
      (analyze_image_detections wolfFrame ["Wolf"]).species_percentages ∧
    lookupS "Wolf"
      (analyze_image_detections wolfFrame ["Wolf"]).species_frame_percentages =
      some 1 :=
  ⟨(sfp_semantics_amended.1 fdC1 ["Wolf", "Elk"] _ rfl (by decide) "Wolf").1
      (by decide),
    sfp_semantics_amended.2.1 wolfFrame ["Wolf"],
    sfp_semantics_amended.2.2 wolfFrame ["Wolf"] "Wolf" 1 (by decide)⟩

/-- Witness for C9's all-empty conjunct at two concrete empty frames. -/
theorem division_safety_degenerate_witness :
    (analyze_detections [emptyFrame, emptyFrame] ["Wolf"]).map (fun r =>
      (r.detection_rate, r.species_percentages, r.species_frame_percentages)) =
      some (0, [], []) :=
  division_safety_degenerate.2 [emptyFrame, emptyFrame] ["Wolf"] (by decide)
    (by decide)

/-- Witness for C10 at a concrete single-Wolf image. -/
theorem classification_label_invariant_witness :
    analyze_detections [wolfFrame] ["Wolf"] =
      some ((analyze_detections [wolfFrame] ["Wolf"]).getD default) ∧
    (((analyze_detections [wolfFrame] ["Wolf"]).getD default).classification =
        "No_Animal" ∨
      ((analyze_detections [wolfFrame] ["Wolf"]).getD default).classification =
        "Unsorted" ∨
      0 < (lookupS
        ((analyze_detections [wolfFrame] ["Wolf"]).getD default).classification
        ((analyze_detections [wolfFrame] ["Wolf"]).getD
          default).species_counts).getD 0) :=
  ⟨rfl, classification_label_invariant [wolfFrame] ["Wolf"] _ rfl⟩

end WolfVue
